import Mathlib

/-!
Verification development for the migration/conversion engine of the
`operator` repository: the parser package (environment-variable resolution
with checked-variable tracking, CNI configuration handling, MTU sentinel
logic) and the utils package (CIDR containment and platform pod-CIDR
merging).  Go code is shallowly embedded: machine bytes are `Nat` values
below 256, Go slices are `List`, Go `nil` pointers are `Option.none`,
fallible Go functions return `Except`, and a Go `panic` (nil-pointer
dereference) is an explicit `GoStop.nilDeref` outcome.  External libraries
(the Kubernetes client, `encoding/json`, `libcni`) are modelled as explicit
data or function parameters; everything from the repository itself is
translated statement by statement from the source.
-/

/-- The error kinds observable in the repository.  `incompatible` models the
typed `ErrIncompatibleCluster`; `notFoundErr` models a Kubernetes NotFound
error returned by `client.Get`; `genericErr` models an untyped error built
with `fmt.Errorf` or `errors.New`. -/
inductive GoError where
  | incompatible (msg : String)
  | notFoundErr (msg : String)
  | genericErr (msg : String)
deriving DecidableEq, Repr

/-- How a Go call can stop abnormally: by returning an error, or by
panicking on a nil-pointer dereference. -/
inductive GoStop where
  | err (e : GoError)
  | nilDeref
deriving DecidableEq, Repr

/-- Monad for embedded Go computations that can stop abnormally. -/
abbrev GoM (α : Type) := Except GoStop α

/-- True when the outcome is the typed `ErrIncompatibleCluster`. -/
def isIncompatStop : Option GoStop → Bool
  | some (GoStop.err (GoError.incompatible _)) => true
  | _ => false

/-! ## Embedding of Go's `net` package (the parts the repository uses)

`net.ParseCIDR`, `IPNet.Contains` and `IPMask.Size` as of the Go release the
repository builds with (Go 1.13/1.14).  An IP address is a list of bytes of
length 4 or 16; `net.IPv4` produces the 16-byte IPv4-in-IPv6 form. -/

/-- Go `net.dtoi`: parse a decimal prefix of `s`, accumulating until a
non-digit; saturates at the sentinel `big = 0xFFFFFF` with `ok = false`.
Returns (value, characters consumed, ok). -/
def dtoiAux : List Char → Nat → Nat → Nat × Nat × Bool
  | [], n, i => (n, i, true)
  | c :: rest, n, i =>
    if '0' ≤ c ∧ c ≤ '9' then
      let n' := n * 10 + (c.toNat - '0'.toNat)
      if n' ≥ 0xFFFFFF then (0xFFFFFF, i, false)
      else dtoiAux rest n' (i + 1)
    else (n, i, true)

def dtoi (s : List Char) : Nat × Nat × Bool :=
  let r := dtoiAux s 0 0
  if r.2.1 = 0 then (0, 0, false) else r

/-- One hexadecimal digit's value, if `c` is one. -/
def hexVal (c : Char) : Option Nat :=
  if '0' ≤ c ∧ c ≤ '9' then some (c.toNat - '0'.toNat)
  else if 'a' ≤ c ∧ c ≤ 'f' then some (c.toNat - 'a'.toNat + 10)
  else if 'A' ≤ c ∧ c ≤ 'F' then some (c.toNat - 'A'.toNat + 10)
  else none

/-- Go `net.xtoi`: parse a hexadecimal prefix; on reaching `big = 0xFFFFFF`
returns value 0 with `ok = false`.  Returns (value, consumed, ok). -/
def xtoiAux : List Char → Nat → Nat → Nat × Nat × Bool
  | [], n, i => (n, i, true)
  | c :: rest, n, i =>
    match hexVal c with
    | none => (n, i, true)
    | some d =>
      let n' := n * 16 + d
      if n' ≥ 0xFFFFFF then (0, i, false)
      else xtoiAux rest n' (i + 1)

def xtoi (s : List Char) : Nat × Nat × Bool :=
  let r := xtoiAux s 0 0
  if r.2.1 = 0 then (0, 0, false) else r

/-- The 12-byte prefix of an IPv4-in-IPv6 address (`net.v4InV6Prefix`). -/
def v4InV6Pre : List Nat := [0, 0, 0, 0, 0, 0, 0, 0, 0, 0, 0xFF, 0xFF]

/-- Go `net.parseIPv4` field loop: `k` fields remain, `acc` holds parsed
octets.  Fields are decimal (`dtoi`), each at most 255, joined by dots. -/
def parseIPv4Aux : Nat → List Char → List Nat → Option (List Nat)
  | 0, s, acc => if s = [] then some acc else none
  | k + 1, s, acc =>
    if s = [] then none
    else
      match (if acc.length = 0 then some s else
              match s with
              | '.' :: r => some r
              | _ => none) with
      | none => none
      | some s1 =>
        let (n, c, ok) := dtoi s1
        if ¬ ok ∨ n > 0xFF then none
        else parseIPv4Aux k (s1.drop c) (acc ++ [n])

/-- Go `net.parseIPv4`: on success returns the 16-byte form `net.IPv4(a,b,c,d)`. -/
def parseIPv4 (s : List Char) : Option (List Nat) :=
  match parseIPv4Aux 4 s [] with
  | none => none
  | some p => some (v4InV6Pre ++ p)

/-- Go `net.parseIPv6` loop exit: the entire input must be consumed; a short
address needs an ellipsis, which then expands to zero bytes; a full address
must not also carry an ellipsis. -/
def parseIPv6Finish (s : List Char) (acc : List Nat) (ell : Option Nat) :
    Option (List Nat) :=
  if s ≠ [] then none
  else if acc.length < 16 then
    match ell with
    | none => none
    | some e => some (acc.take e ++ List.replicate (16 - acc.length) 0 ++ acc.drop e)
  else match ell with
    | some _ => none
    | none => some acc

/-- Go `net.parseIPv6` main loop: hexadecimal 16-bit groups separated by
colons, at most one ellipsis, optional trailing dotted IPv4. -/
def parseIPv6Loop : Nat → List Char → List Nat → Option Nat → Option (List Nat)
  | 0, _, _, _ => none
  | fuel + 1, s, acc, ell =>
    if acc.length ≥ 16 then parseIPv6Finish s acc ell
    else
      let (n, c, ok) := xtoi s
      if ¬ ok ∨ n > 0xFFFF then none
      else
        match s.drop c with
        | '.' :: _ =>
          if (ell = none ∧ acc.length ≠ 12) ∨ acc.length + 4 > 16 then none
          else
            match parseIPv4 s with
            | none => none
            | some ip4 => parseIPv6Finish [] (acc ++ ip4.drop 12) ell
        | rest =>
          let acc' := acc ++ [n / 256, n % 256]
          match rest with
          | [] => parseIPv6Finish [] acc' ell
          | [_] => none
          | ':' :: s2 =>
            match s2 with
            | ':' :: s3 =>
              if ell ≠ none then none
              else if s3 = [] then parseIPv6Finish [] acc' (some acc'.length)
              else parseIPv6Loop fuel s3 acc' (some acc'.length)
            | _ => parseIPv6Loop fuel s2 acc' ell
          | _ => none

/-- Go `net.parseIPv6` entry: a leading `::` registers an ellipsis at
position 0; a bare `::` is the all-zero address. -/
def parseIPv6 (s : List Char) : Option (List Nat) :=
  match s with
  | ':' :: ':' :: rest =>
    if rest = [] then some (List.replicate 16 0)
    else parseIPv6Loop (rest.length + 1) rest [] (some 0)
  | _ => parseIPv6Loop (s.length + 1) s [] none

/-- Index of the last `%` in the list, or none. -/
def lastIdxPercent (s : List Char) : Option Nat :=
  (List.range s.length).foldl
    (fun a i => if s.get? i = some '%' then some i else a) none

/-- Go `net.splitHostZone` host part: the zone after the last `%` is split
off only when that `%` is not the first character. -/
def stripZone (s : List Char) : List Char :=
  match lastIdxPercent s with
  | some i => if 0 < i then s.take i else s
  | none => s

/-- Split at the first `/` (Go `byteIndex(s, '/')`). -/
def splitSlashAux : List Char → List Char → Option (List Char × List Char)
  | [], _ => none
  | '/' :: rest, acc => some (acc.reverse, rest)
  | c :: rest, acc => splitSlashAux rest (c :: acc)

def splitSlash (s : List Char) : Option (List Char × List Char) :=
  splitSlashAux s []

/-- Go `net.CIDRMask` byte construction. -/
def cidrMaskAux : Nat → Nat → List Nat
  | 0, _ => []
  | l + 1, n =>
    if n ≥ 8 then 0xFF :: cidrMaskAux l (n - 8)
    else (0xFF - (0xFF >>> n)) :: cidrMaskAux l 0

/-- Go `net.CIDRMask ones bits`: `bits/8` bytes, the first `ones` bits set. -/
def cidrMask (ones bits : Nat) : List Nat :=
  if ones > bits then [] else cidrMaskAux (bits / 8) ones

/-- Go `IP.Mask`: a 16-byte mask over a 4-byte address drops its `0xFF`
prefix; a 4-byte mask over an IPv4-in-IPv6 address drops the address's
12-byte prefix; mismatched lengths yield nil. -/
def ipMaskApply (ip m : List Nat) : List Nat :=
  let m' := if m.length = 16 ∧ ip.length = 4 ∧ (m.take 12).all (· = 0xFF)
            then m.drop 12 else m
  let ip' := if m'.length = 4 ∧ ip.length = 16 ∧ ip.take 12 = v4InV6Pre
             then ip.drop 12 else ip
  if ip'.length ≠ m'.length then []
  else List.zipWith (fun a b => a.land b) ip' m'

/-- Leading-ones count of a byte whose bits are ones-then-zeros, else none. -/
def byteOnes (v : Nat) : Option Nat :=
  if v = 0 then some 0
  else if v = 0x80 then some 1
  else if v = 0xC0 then some 2
  else if v = 0xE0 then some 3
  else if v = 0xF0 then some 4
  else if v = 0xF8 then some 5
  else if v = 0xFC then some 6
  else if v = 0xFE then some 7
  else if v = 0xFF then some 8
  else none

/-- Go `net.simpleMaskLength`: the prefix length of a canonical mask, or
none for a non-contiguous mask (Go returns -1). -/
def simpleMaskLength : List Nat → Option Nat
  | [] => some 0
  | v :: rest =>
    if v = 0xFF then (simpleMaskLength rest).map (8 + ·)
    else
      match byteOnes v with
      | none => none
      | some k => if rest.all (· = 0) then some k else none

/-- Go `IPMask.Size`: (ones, bits), or (0, 0) for a non-contiguous mask. -/
def maskSize (m : List Nat) : Nat × Nat :=
  match simpleMaskLength m with
  | none => (0, 0)
  | some n => (n, m.length * 8)

/-- Go `net.IPNet`: a network address together with its mask. -/
structure IPNet where
  ip : List Nat
  mask : List Nat
deriving DecidableEq, Repr

/-- Go `IP.To4`: a 4-byte address is returned as is; a 16-byte
IPv4-in-IPv6 address is shortened to its last 4 bytes; otherwise nil. -/
def ipTo4 (ip : List Nat) : Option (List Nat) :=
  if ip.length = 4 then some ip
  else if ip.length = 16 ∧ ip.take 12 = v4InV6Pre then some (ip.drop 12)
  else none

/-- Go `net.networkNumberAndMask`: normalise the network address with `To4`
and align the mask's length with it. -/
def netNumberAndMask (nw : IPNet) : Option (List Nat × List Nat) :=
  let ip? := match ipTo4 nw.ip with
    | some x => some x
    | none => if nw.ip.length = 16 then some nw.ip else none
  match ip? with
  | none => none
  | some ip =>
    if nw.mask.length = 4 then
      if ip.length ≠ 4 then none else some (ip, nw.mask)
    else if nw.mask.length = 16 then
      if ip.length = 4 then some (ip, nw.mask.drop 12) else some (ip, nw.mask)
    else none

/-- Go `IPNet.Contains`. -/
def netContains (nw : IPNet) (x : List Nat) : Bool :=
  match netNumberAndMask nw with
  | none => false
  | some (nn, m) =>
    let x' := match ipTo4 x with
      | some y => y
      | none => x
    (x'.length == nn.length) &&
      ((List.zip nn (List.zip m x')).all fun p => p.1.land p.2.1 == p.2.2.land p.2.1)

/-- Go `net.ParseCIDR`: returns the parsed address and the masked network,
or none for a malformed CIDR literal. -/
def goParseCIDR (s : String) : Option (List Nat × IPNet) :=
  match splitSlash s.data with
  | none => none
  | some (addr, maskS) =>
    let ipAndLen : Option (List Nat) × Nat :=
      match parseIPv4 addr with
      | some ip => (some ip, 4)
      | none => (parseIPv6 (stripZone addr), 16)
    let (n, i, ok) := dtoi maskS
    match ipAndLen.1 with
    | none => none
    | some ip =>
      if ¬ ok ∨ i ≠ maskS.length ∨ n > 8 * ipAndLen.2 then none
      else
        let m := cidrMask n (8 * ipAndLen.2)
        some (ip, ⟨ipMaskApply ip m, m⟩)

/-- utils `cidrWithinCidr`: the pool network lies within the CIDR network. -/
def cidrWithinCidr (cidr pool : String) : Bool :=
  match goParseCIDR cidr with
  | none => false
  | some (_, cNet) =>
    match goParseCIDR pool with
    | none => false
    | some (_, pNet) =>
      let ipMin := pNet.ip
      let pOnes := (maskSize pNet.mask).1
      let cOnes := (maskSize cNet.mask).1
      netContains cNet ipMin && decide (pOnes ≥ cOnes)

/-! ## Operator API types (`operatorv1`), restricted to the fields the
embedded code touches. -/

structure IPPool where
  CIDR : String
deriving DecidableEq, Repr

inductive HostPortsType where
  | enabled
  | disabled
deriving DecidableEq, Repr

structure NodeAddressAutodetection where
  FirstFound : Option Bool := none
  Interface : String := ""
  CanReach : String := ""
  SkipInterface : String := ""
deriving DecidableEq, Repr

/-- `operatorv1.CalicoNetworkSpec`.  The source holds a pointer to it and the
callers under scrutiny initialise it, so it is embedded by value; the
sentinel MTU branch of `handleNetwork` replaces the whole structure, which
the embedding reproduces. -/
structure CalicoNetworkSpec where
  IPPools : Option (List IPPool) := none
  MTU : Option Int := none
  HostPorts : Option HostPortsType := none
  NodeAddressAutodetectionV4 : Option NodeAddressAutodetection := none
deriving DecidableEq, Repr

structure InstallationSpec where
  CalicoNetwork : CalicoNetworkSpec := {}
deriving DecidableEq, Repr

structure Installation where
  Spec : InstallationSpec := {}
deriving DecidableEq, Repr

/-! ## utils: MergePlatformPodCIDRs -/

/-- Go `append` on the possibly-nil pool slice: appending to nil yields a
non-nil one-element slice. -/
def appendPool (pools : Option (List IPPool)) (p : IPPool) : Option (List IPPool) :=
  some (pools.getD [] ++ [p])

/-- The loop of `MergePlatformPodCIDRs` for a nil pool list: first IPv4 and
first IPv6 platform CIDR are appended (family decided by `addr.To4()` on the
parsed address), malformed entries only log, and the loop breaks once both
families were found. -/
def mergeLoop : List String → Bool → Bool → Option (List IPPool) → Option (List IPPool)
  | [], _, _, pools => pools
  | c :: rest, v4f, v6f, pools =>
    match goParseCIDR c with
    | none => mergeLoop rest v4f v6f pools
    | some (addr, _) =>
      if (ipTo4 addr).isNone then
        if v6f then mergeLoop rest v4f v6f pools
        else
          let pools' := appendPool pools ⟨c⟩
          if v4f then pools' else mergeLoop rest v4f true pools'
      else
        if v4f then mergeLoop rest v4f v6f pools
        else
          let pools' := appendPool pools ⟨c⟩
          if v6f then pools' else mergeLoop rest true v6f pools'

/-- The message of the `fmt.Errorf` in `MergePlatformPodCIDRs` (`%v` of a
string prints the string). -/
def mergeErrMsg (cidr : String) : String :=
  "IPPool " ++ cidr ++ " is not within the platform's configured pod network CIDR(s)"

/-- The configured-pools loop of `MergePlatformPodCIDRs`: each pool must lie
within some platform CIDR; the first pool within none produces the error. -/
def checkPools : List IPPool → List String → Option GoError
  | [], _ => none
  | p :: rest, cidrs =>
    if cidrs.any (fun cc => cidrWithinCidr cc p.CIDR) then checkPools rest cidrs
    else some (.genericErr (mergeErrMsg p.CIDR))

/-- utils `MergePlatformPodCIDRs`.  The mutation of `i` is modelled by
returning the updated Installation. -/
def MergePlatformPodCIDRs (i : Installation) (platformCIDRs : List String) :
    Except GoError Installation :=
  match i.Spec.CalicoNetwork.IPPools with
  | none =>
    if platformCIDRs.length = 0 then .ok i
    else .ok { i with Spec.CalicoNetwork.IPPools := mergeLoop platformCIDRs false false none }
  | some pools =>
    if pools.length = 0 then .ok i
    else
      match checkPools pools platformCIDRs with
      | some e => .error e
      | none => .ok i

/-! ## Specification-side form of the platform-CIDR selection (for the
refinement statement of the merge contract). -/

inductive IPFam where
  | v4
  | v6
deriving DecidableEq, Repr

/-- Address family of a CIDR string, decided as the source decides it: by
`addr.To4()` on the address returned by `net.ParseCIDR`; `none` when the
string is malformed. -/
def cidrFamily (c : String) : Option IPFam :=
  match goParseCIDR c with
  | none => none
  | some (addr, _) => if (ipTo4 addr).isNone then some .v6 else some .v4

/-- Modelled from the spec's merge contract, clause two: scan the platform
CIDRs in order, select at most the first IPv4-family and at most the first
IPv6-family CIDR, skip malformed entries, and stop scanning once one CIDR
of each family has been found. -/
def specSelectGo : List String → Bool → Bool → List String
  | [], _, _ => []
  | c :: rest, v4f, v6f =>
    if v4f ∧ v6f then []
    else
      match cidrFamily c with
      | none => specSelectGo rest v4f v6f
      | some .v4 => if v4f then specSelectGo rest v4f v6f else c :: specSelectGo rest true v6f
      | some .v6 => if v6f then specSelectGo rest v4f v6f else c :: specSelectGo rest v4f true

def specSelectPlatformCIDRs (cidrs : List String) : List String :=
  specSelectGo cidrs false false

/-- A possibly-empty selection, as it lands in the possibly-nil pool slice:
no selected CIDR leaves the slice nil. -/
def optionOfList : List IPPool → Option (List IPPool)
  | [] => none
  | l => some l

/-! ## Kubernetes core types and environment-variable resolution -/

structure ConfigMapKeySelector where
  Name : String
  Key : String
deriving DecidableEq, Repr

/-- `corev1.EnvVarSource`: only the ConfigMap indirection is materialised;
a source whose `ConfigMapKeyRef` is nil stands for any of the other
indirection kinds (secret, pod field, resource field), which is all the
embedded code can observe of them. -/
structure EnvVarSource where
  ConfigMapKeyRef : Option ConfigMapKeySelector := none
deriving DecidableEq, Repr

structure EnvVar where
  Name : String
  Value : String := ""
  ValueFrom : Option EnvVarSource := none
deriving DecidableEq, Repr

structure Container where
  Name : String
  Env : List EnvVar := []
deriving DecidableEq, Repr

structure PodSpec where
  Containers : List Container := []
  InitContainers : List Container := []
deriving DecidableEq, Repr

/-- The Kubernetes client, restricted to what the embedded code fetches:
ConfigMaps of the system namespace by name, each a list of key/value pairs.
A name absent from the store is a NotFound fetch error. -/
abbrev ConfigMapStore := List (String × List (String × String))

/-- parser `getEnvVar`: a non-empty literal value is returned directly;
otherwise the value source is dereferenced — a nil source is a nil-pointer
dereference (Go panic), a ConfigMap reference is fetched from the system
namespace (indexing `Data` with a missing key yields Go's zero string), and
any other indirection kind is an incompatibility. -/
def getEnvVar (store : ConfigMapStore) (e : EnvVar) : GoM String :=
  if e.Value ≠ "" then .ok e.Value
  else
    match e.ValueFrom with
    | none => .error .nilDeref
    | some vf =>
      match vf.ConfigMapKeyRef with
      | some ref =>
        match store.lookup ref.Name with
        | none => .error (.err (.notFoundErr ("configmaps " ++ ref.Name ++ " not found")))
        | some data => .ok ((data.lookup ref.Key).getD "")
      | none =>
        .error (.err (.incompatible
          "only configMapRef & explicit values supported for env vars at this time"))

/-- parser `getEnv` (free function): nil when the key is absent, else the
resolved value of the first entry with that name.  The Go function returns
a non-nil pointer alongside a possible error; since every caller checks
the error first, the error short-circuit of `Except` is observationally
equivalent. -/
def getEnv (store : ConfigMapStore) (env : List EnvVar) (key : String) : GoM (Option String) :=
  match env.find? (fun e => e.Name == key) with
  | some e => (getEnvVar store e).map some
  | none => .ok none

/-- The per-container checked-variable bookkeeping (`checkedFields`),
as an association list of containers to claimed variable names. -/
abbrev CheckedVars := List (String × List String)

def lookupChecked (m : CheckedVars) (container : String) : List String :=
  (m.lookup container).getD []

def insertChecked (m : CheckedVars) (container key : String) : CheckedVars :=
  match m.lookup container with
  | none => m ++ [(container, [key])]
  | some keys =>
    m.map fun p =>
      if p.1 == container then (p.1, if keys.contains key then keys else keys ++ [key])
      else p

/-- parser `RaemonSet`: the fetched daemon set (its pod spec is all the code
reads of it) together with the checked-variable map. -/
structure RaemonSet where
  spec : PodSpec
  checkedVars : CheckedVars := []
deriving DecidableEq, Repr

/-- parser `getContainers`: search regular containers, then init containers. -/
def getContainers (spec : PodSpec) (name : String) : Option Container :=
  match spec.Containers.find? (fun c => c.Name == name) with
  | some c => some c
  | none => spec.InitContainers.find? (fun c => c.Name == name)

def RaemonSet.ignoreEnv (r : RaemonSet) (container key : String) : RaemonSet :=
  { r with checkedVars := insertChecked r.checkedVars container key }

/-- Alias for the free `getEnv`: inside `RaemonSet.getEnv` the plain name
would resolve to the method being defined. -/
def getEnvPlain (store : ConfigMapStore) (env : List EnvVar) (key : String) :
    GoM (Option String) :=
  getEnv store env key

/-- parser `(r *RaemonSet).getEnv`: resolve a variable on a container and
mark it checked; a missing container is an incompatibility. -/
def RaemonSet.getEnv (r : RaemonSet) (store : ConfigMapStore) (container key : String) :
    GoM (Option String) × RaemonSet :=
  match getContainers r.spec container with
  | none =>
    (.error (.err (.incompatible
      ("couldn't find " ++ container ++ " container in existing calico-node daemonset"))), r)
  | some c => (getEnvPlain store c.Env key, r.ignoreEnv container key)

/-- The value component of `RaemonSet.getEnv`, which depends only on the pod
spec (used to state hypotheses that survive the checked-variable updates). -/
def envLookup (store : ConfigMapStore) (spec : PodSpec) (container key : String) :
    GoM (Option String) :=
  match getContainers spec container with
  | none =>
    .error (.err (.incompatible
      ("couldn't find " ++ container ++ " container in existing calico-node daemonset")))
  | some c => getEnv store c.Env key

/-- parser `uncheckedVars`: every environment variable of a regular
container not present in the checked map, as `container/name`. -/
def uncheckedVars (r : RaemonSet) : List String :=
  r.spec.Containers.flatMap fun t =>
    t.Env.filterMap fun v =>
      if (lookupChecked r.checkedVars t.Name).contains v.Name then none
      else some (t.Name ++ "/" ++ v.Name)

/-! ## String helpers used by the handlers -/

/-- Go `strings.ToLower` (the values compared are ASCII). -/
def strToLower (s : String) : String :=
  ⟨s.data.map Char.toLower⟩

/-- Go `strings.HasPrefix`. -/
def goHasPre (s pre : String) : Bool :=
  pre.data.isPrefixOf s.data

/-- Go `strings.TrimPrefix`. -/
def goTrimPre (s pre : String) : String :=
  if goHasPre s pre then ⟨s.data.drop pre.data.length⟩ else s

/-- Go `int32(n)`: two's-complement truncation to 32 bits. -/
def int32cast (n : Int) : Int :=
  ((n + 2 ^ 31) % 2 ^ 32) - 2 ^ 31

/-- `intstr.FromString` followed by `IntValue`: `strconv.Atoi` with the
error discarded — 0 on a syntax error, the clamped int64 on a range error. -/
def intstrIntValue (s : String) : Int :=
  match s.data with
  | [] => 0
  | cs =>
    let signAndDigits : Bool × List Char :=
      match cs with
      | '-' :: r => (true, r)
      | '+' :: r => (false, r)
      | r => (false, r)
    let ds := signAndDigits.2
    if ds = [] ∨ ¬ ds.all Char.isDigit then 0
    else
      let n : Nat := ds.foldl (fun a c => a * 10 + (c.toNat - '0'.toNat)) 0
      let v : Int := if signAndDigits.1 then -(n : Int) else (n : Int)
      if v > 2 ^ 63 - 1 then 2 ^ 63 - 1
      else if v < -(2 ^ 63) then -(2 ^ 63) else v

/-- parser `getAutoDetection`: parse the autodetection method string into
one of the four detection strategies; unrecognized methods are an
`errors.New` error. -/
def getAutoDetection (method : String) : Except GoError NodeAddressAutodetection :=
  if method = "" ∨ method = "first-found" then
    .ok { FirstFound := some true }
  else if goHasPre method "interface=" then
    .ok { Interface := goTrimPre method "interface=" }
  else if goHasPre method "can-reach=" then
    .ok { CanReach := goTrimPre method "can-reach=" }
  else if goHasPre method "skip-interface=" then
    .ok { SkipInterface := goTrimPre method "skip-interface=" }
  else
    .error (.genericErr
      ("unrecognized option for AUTODETECTION_METHOD_SKIP_INTERFACE: " ++ method))

/-! ## parser: the first document's handlers and `GetExistingConfig` -/

/-- parser `Config` (the first document's shape). -/
structure Config where
  AutoDetectionMethod : Option NodeAddressAutodetection := none
  MTU : Option Int := none
  FelixEnvVars : List EnvVar := []
  CNIConfig : String := ""
deriving DecidableEq, Repr

/-- parser `components` of the first document.  `kubeControllers` and
`typha` are fetched but never read by any handler, so they are omitted;
the client is passed to the handlers as the ConfigMap store. -/
structure Components where
  node : RaemonSet
deriving DecidableEq, Repr

/-- One environment guard, the recurring source shape: read the variable
(marking it checked), propagate a get error, and reject a present value
that fails the check with the supplied error. -/
def envGuard (store : ConfigMapStore) (container key : String)
    (bad : String → Bool) (mkErr : String → GoError) (r : RaemonSet) :
    RaemonSet × Option GoStop :=
  match r.getEnv store container key with
  | (.error s, r') => (r', some s)
  | (.ok none, r') => (r', none)
  | (.ok (some v), r') => (r', if bad v then some (.err (mkErr v)) else none)

/-- parser `(c *components).handleCore` (first document): the datastore type
must be `kubernetes`, and four further variables are marked as ignored. -/
def Components.handleCore (store : ConfigMapStore) (c : Components) (cfg : Config) :
    Components × Config × Option GoStop :=
  match c.node.getEnv store "calico-node" "DATASTORE_TYPE" with
  | (.error s, n1) => (⟨n1⟩, cfg, some s)
  | (.ok dsType, n1) =>
    if dsType.elim false (fun v => v != "kubernetes") then
      (⟨n1⟩, cfg, some (.err (.incompatible
        "only CALICO_NETWORKING_BACKEND=bird is supported at this time")))
    else
      (⟨((((n1.ignoreEnv "calico-node" "WAIT_FOR_DATASTORE").ignoreEnv
            "calico-node" "CLUSTER_TYPE").ignoreEnv
            "calico-node" "NODENAME").ignoreEnv
            "calico-node" "CALICO_DISABLE_FILE_LOGGING")⟩, cfg, none)

/-- parser `(c *components).handleNetwork` (first document): guards on the
networking backend, endpoint-to-host action and IP mode, a JSON
validity check of the raw CNI document (`encoding/json` is the `jsonErr`
parameter) and the direct CNI_MTU read. -/
def Components.handleNetwork (jsonErr : String → Option GoError)
    (store : ConfigMapStore) (c : Components) (cfg : Config) :
    Components × Config × Option GoStop :=
  match envGuard store "calico-node" "CALICO_NETWORKING_BACKEND"
      (fun v => v != "" && v != "bird")
      (fun _ => .incompatible
        "only CALICO_NETWORKING_BACKEND=bird is supported at this time") c.node with
  | (n1, some s) => (⟨n1⟩, cfg, some s)
  | (n1, none) =>
  match envGuard store "calico-node" "FELIX_DEFAULTENDPOINTTOHOSTACTION"
      (fun v => strToLower v != "accept")
      (fun v => .incompatible
        ("unexpected FELIX_DEFAULTENDPOINTTOHOSTACTION: '" ++ v ++
         "'. Only 'accept' is supported.")) n1 with
  | (n2, some s) => (⟨n2⟩, cfg, some s)
  | (n2, none) =>
  match envGuard store "calico-node" "IP"
      (fun v => strToLower v != "autodetect")
      (fun v => .incompatible
        ("unexpected IP value: '" ++ v ++ "'. Only 'autodetect' is supported.")) n2 with
  | (n3, some s) => (⟨n3⟩, cfg, some s)
  | (n3, none) =>
  match n3.getEnv store "install-cni" "CNI_NETWORK_CONFIG" with
  | (.error s, n4) => (⟨n4⟩, cfg, some s)
  | (.ok cniConfig, n4) =>
  match (match cniConfig with
         | some doc => jsonErr doc
         | none => none) with
  | some e => (⟨n4⟩, cfg, some (.err e))
  | none =>
  match n4.getEnv store "install-cni" "CNI_MTU" with
  | (.error s, n5) => (⟨n5⟩, cfg, some s)
  | (.ok (some v), n5) =>
    (⟨n5⟩, { cfg with MTU := some (int32cast (intstrIntValue v)) }, none)
  | (.ok none, n5) => (⟨n5⟩, cfg, none)

/-- The handler pipeline of parser `GetExistingConfig` (first document),
with the final components state kept visible: `handleNetwork`, then
`handleCore`.  The source's unchecked-variable check is commented out
there, and hence absent here. -/
def getExistingConfigRun (jsonErr : String → Option GoError)
    (store : ConfigMapStore) (ds : PodSpec) : Components × Config × Option GoStop :=
  match Components.handleNetwork jsonErr store ⟨⟨ds, []⟩⟩ {} with
  | (c1, cfg1, some e) => (c1, cfg1, some e)
  | (c1, cfg1, none) => Components.handleCore store c1 cfg1

/-- parser `GetExistingConfig` (first document): the object fetches are
modelled as the given pod spec and ConfigMap store. -/
def GetExistingConfig (jsonErr : String → Option GoError)
    (store : ConfigMapStore) (ds : PodSpec) : GoM (Option Config) :=
  match getExistingConfigRun jsonErr store ds with
  | (_, _, some s) => .error s
  | (_, cfg, none) => .ok (some cfg)

/-! ## parser: the CNI-aware `handleNetwork` (the document with
`calicoCNIConfig`) -/

structure IPAMConf where
  IPv4Pools : List String := []
deriving DecidableEq, Repr

structure FeatureControlConf where
  FloatingIPs : Bool := false
  IPAddrsNoIpam : Bool := false
deriving DecidableEq, Repr

/-- calico cni-plugin `types.NetConf`, restricted to the fields read. -/
structure NetConf where
  MTU : Int := 0
  IPAM : IPAMConf := {}
  FeatureControl : FeatureControlConf := {}
deriving DecidableEq, Repr

/-- parser `components` of the CNI-aware document: the daemon set plus the
preloaded plugin map (only its key set is ever read here) and the
deserialized calico plugin configuration (nil when no calico plugin was
present). -/
structure CNIComponents where
  node : RaemonSet
  pluginCNIConfig : List String := []
  calicoCNIConfig : Option NetConf := none
deriving DecidableEq, Repr

/-- The trailing CNI-setting checks of the CNI-aware `handleNetwork`
(IPAM ranges, floating IPs, IP addresses without IPAM). -/
def processCNIChecks (c : CNIComponents) (node : RaemonSet) (conf : NetConf)
    (cfg : Installation) : CNIComponents × Installation × Option GoStop :=
  if conf.IPAM.IPv4Pools ≠ [] then
    ({ c with node := node }, cfg, some (.err (.incompatible "cni ipam ranges not suported")))
  else if conf.FeatureControl.FloatingIPs then
    ({ c with node := node }, cfg, some (.err (.incompatible "floating IPs not supported")))
  else if conf.FeatureControl.IPAddrsNoIpam then
    ({ c with node := node }, cfg, some (.err (.incompatible "IpAddrsNoIpam not supported")))
  else ({ c with node := node }, cfg, none)

/-- The CNI section of the CNI-aware `handleNetwork` (source lines from the
portmap check on): host ports from the portmap plugin, the bandwidth and
missing-calico incompatibilities, MTU resolution by the -1 sentinel —
replacing the whole CalicoNetwork in the sentinel branch, as the source
does — and the final CNI-setting checks. -/
def handleNetworkCNI (store : ConfigMapStore) (c : CNIComponents) (node : RaemonSet)
    (cfg1 : Installation) : CNIComponents × Installation × Option GoStop :=
  let hp : HostPortsType :=
    if c.pluginCNIConfig.contains "portmap" then .enabled else .disabled
  let cfg2 := { cfg1 with Spec.CalicoNetwork.HostPorts := some hp }
  if c.pluginCNIConfig.contains "bandwidth" then
    ({ c with node := node }, cfg2, some (.err (.incompatible
      "operator does not yet support bandwidth")))
  else
    match c.calicoCNIConfig with
    | none =>
      ({ c with node := node }, cfg2, some (.err (.incompatible
        "operator does not yet support running without calico CNI")))
    | some conf =>
      if conf.MTU = -1 then
        match node.getEnv store "install-cni" "CNI_MTU" with
        | (.error s, n5) => ({ c with node := n5 }, cfg2, some s)
        | (.ok none, n5) =>
          ({ c with node := n5 }, cfg2, some (.err (.genericErr "couldn't detect MTU")))
        | (.ok (some v), n5) =>
          processCNIChecks c n5 conf
            { cfg2 with Spec.CalicoNetwork := { MTU := some (int32cast (intstrIntValue v)) } }
      else
        processCNIChecks c node conf
          { cfg2 with Spec.CalicoNetwork.MTU := some (int32cast conf.MTU) }

/-- parser `handleNetwork` (the CNI-aware document): environment guards,
autodetection, then the CNI section (`handleNetworkCNI`). -/
def handleNetwork (store : ConfigMapStore) (c : CNIComponents) (cfg : Installation) :
    CNIComponents × Installation × Option GoStop :=
  match envGuard store "calico-node" "CALICO_NETWORKING_BACKEND"
      (fun v => v != "" && v != "bird")
      (fun _ => .incompatible
        "only CALICO_NETWORKING_BACKEND=bird is supported at this time") c.node with
  | (n1, some s) => ({ c with node := n1 }, cfg, some s)
  | (n1, none) =>
  match envGuard store "calico-node" "FELIX_DEFAULTENDPOINTTOHOSTACTION"
      (fun v => strToLower v != "accept")
      (fun v => .incompatible
        ("unexpected FELIX_DEFAULTENDPOINTTOHOSTACTION: '" ++ v ++
         "'. Only 'accept' is supported.")) n1 with
  | (n2, some s) => ({ c with node := n2 }, cfg, some s)
  | (n2, none) =>
  match envGuard store "calico-node" "IP"
      (fun v => strToLower v != "autodetect")
      (fun v => .incompatible
        ("unexpected IP value: '" ++ v ++ "'. Only 'autodetect' is supported.")) n2 with
  | (n3, some s) => ({ c with node := n3 }, cfg, some s)
  | (n3, none) =>
  match n3.getEnv store "calico-node" "IP_AUTODETECTION_METHOD" with
  | (.error s, n4) => ({ c with node := n4 }, cfg, some s)
  | (.ok am, n4) =>
  match (match am with
         | some m => (getAutoDetection m).map some
         | none => .ok none : Except GoError (Option NodeAddressAutodetection)) with
  | .error e => ({ c with node := n4 }, cfg, some (.err e))
  | .ok tam? =>
  let cfg1 := match tam? with
    | some tam => { cfg with Spec.CalicoNetwork.NodeAddressAutodetectionV4 := some tam }
    | none => cfg
  handleNetworkCNI store c n4 cfg1

/-! ## parser: `loadCNI` and `loadCNIConfig` -/

/-- libcni `NetworkConfig`, as the embedded code observes it: the plugin's
network name and its raw bytes. -/
structure CNIPlugin where
  Name : String
  Bytes : String
deriving DecidableEq, Repr

/-- libcni `NetworkConfigList`, restricted to its plugin list. -/
structure ConfList where
  Plugins : List CNIPlugin
deriving DecidableEq, Repr

/-- The characters of the MTU placeholder token. -/
def patMTU : List Char := "__CNI_MTU__".data

/-- Go `strings.Contains` over character lists. -/
def containsSubList (pat : List Char) : List Char → Bool
  | [] => pat.isEmpty
  | c :: rest => pat.isPrefixOf (c :: rest) || containsSubList pat rest

/-- Go `strings.Replace` with count -1 over character lists, by a
left-to-right scan replacing non-overlapping occurrences (used only with
the nonempty pattern `__CNI_MTU__`; the fuel bounds the scan by the input
length). -/
def replaceAllCh : Nat → List Char → List Char → List Char → List Char
  | 0, s, _, _ => s
  | _, [], _, _ => []
  | fuel + 1, c :: rest, pat, rep =>
    if pat ≠ [] ∧ pat.isPrefixOf (c :: rest) then
      rep ++ replaceAllCh fuel ((c :: rest).drop pat.length) pat rep
    else c :: replaceAllCh fuel rest pat rep

def goReplaceAll (s pat rep : String) : String :=
  ⟨replaceAllCh s.data.length s.data pat.data rep.data⟩

/-- parse_cni.go's substitution step: every occurrence of `__CNI_MTU__` is
replaced by the sentinel `-1` before structural parsing. -/
def templateCNIMTU (s : String) : String :=
  if containsSubList patMTU s.data then goReplaceAll s "__CNI_MTU__" "-1" else s

/-- parser `loadCNIConfig`: substitute the MTU placeholder, try the
document as a conflist, and fall back to a single plugin configuration
wrapped into a one-element list (`libcni.ConfListFromConf`).  The two
libcni parsers are external and passed as parameters. -/
def loadCNIConfig (confListFromBytes : String → Except GoError ConfList)
    (confFromBytes : String → Except GoError CNIPlugin) (cniConfig : String) :
    Except GoError ConfList :=
  let s := templateCNIMTU cniConfig
  match confListFromBytes s with
  | .ok l => .ok l
  | .error _ =>
    match confFromBytes s with
    | .error e => .error e
    | .ok conf => .ok ⟨[conf]⟩

/-- parser `components` as the `loadCNI` document uses it: the daemon set
and the deserialization target `cniConfig`. -/
structure LoadComponents where
  node : RaemonSet
  cniConfig : Option NetConf := none
deriving DecidableEq, Repr

/-- parser `loadCNI` (the document with the portmap/bandwidth/calico
checks): read the CNI document from the install-cni container, parse it,
set host ports from the portmap plugin's presence, reject the bandwidth
plugin and a missing calico plugin, and deserialize the calico plugin's
bytes (`json.Unmarshal` is the `unmarshalNetConf` parameter).  The Go
plugin map keeps the last plugin of each name, hence the reversed find. -/
def loadCNI (confListFromBytes : String → Except GoError ConfList)
    (confFromBytes : String → Except GoError CNIPlugin)
    (unmarshalNetConf : String → Except GoError NetConf)
    (store : ConfigMapStore) (c : LoadComponents) (cfg : Installation) :
    LoadComponents × Installation × Option GoStop :=
  match c.node.getEnv store "install-cni" "CNI_NETWORK_CONFIG" with
  | (.error s, n1) => ({ c with node := n1 }, cfg, some s)
  | (.ok none, n1) => ({ c with node := n1 }, cfg, none)
  | (.ok (some doc), n1) =>
    match loadCNIConfig confListFromBytes confFromBytes doc with
    | .error e => ({ c with node := n1 }, cfg, some (.err e))
    | .ok conflist =>
      let names := conflist.Plugins.map (fun p => p.Name)
      let hp : HostPortsType := if names.contains "portmap" then .enabled else .disabled
      let cfg1 := { cfg with Spec.CalicoNetwork.HostPorts := some hp }
      if names.contains "bandwidth" then
        ({ c with node := n1 }, cfg1, some (.err (.incompatible
          "operator does not yet support bandwidth")))
      else
        match conflist.Plugins.reverse.find? (fun p => p.Name == "calico") with
        | none =>
          ({ c with node := n1 }, cfg1, some (.err (.incompatible
            "operator does not yet support running without calico CNI")))
        | some calicoConfig =>
          match unmarshalNetConf calicoConfig.Bytes with
          | .error e => ({ c with node := n1 }, cfg1, some (.err e))
          | .ok conf => ({ node := n1, cniConfig := some conf }, cfg1, none)

/-! ## Hypothesis vocabulary for the handler theorems -/

/-- An environment lookup that passed a guard: the variable is absent, or
present with a value the guard accepts. -/
def guardPassed (r : GoM (Option String)) (good : String → Prop) : Prop :=
  r = .ok none ∨ ∃ v, r = .ok (some v) ∧ good v

/-- The four leading guards of `handleNetwork` all pass on this pod spec. -/
def networkGuardsOk (store : ConfigMapStore) (spec : PodSpec) : Prop :=
  guardPassed (envLookup store spec "calico-node" "CALICO_NETWORKING_BACKEND")
      (fun v => v = "" ∨ v = "bird") ∧
  guardPassed (envLookup store spec "calico-node" "FELIX_DEFAULTENDPOINTTOHOSTACTION")
      (fun v => strToLower v = "accept") ∧
  guardPassed (envLookup store spec "calico-node" "IP")
      (fun v => strToLower v = "autodetect") ∧
  guardPassed (envLookup store spec "calico-node" "IP_AUTODETECTION_METHOD")
      (fun v => ∃ t, getAutoDetection v = .ok t)

/-- Append a run of selected platform CIDRs to a possibly-nil pool slice
(the cumulative effect of the loop's `append` calls). -/
def appendPools (pools : Option (List IPPool)) : List String → Option (List IPPool)
  | [] => pools
  | l => some (pools.getD [] ++ l.map IPPool.mk)

/-- True when a merge outcome is the typed `ErrIncompatibleCluster`. -/
def isIncompatExcept {α : Type} : Except GoError α → Bool
  | .error (.incompatible _) => true
  | _ => false

/-! ## Concrete fixtures for witnesses and counterexamples -/

/-- An Installation with a nil pool list. -/
def instPoolsNil : Installation := {}

/-- An Installation with an explicitly empty pool list. -/
def instPoolsEmpty : Installation :=
  { Spec := { CalicoNetwork := { IPPools := some [] } } }

/-- An Installation with one configured pool. -/
def instPool : Installation :=
  { Spec := { CalicoNetwork := { IPPools := some [⟨"10.1.0.0/16"⟩] } } }

/-- A daemon set whose calico-node container carries one unrecognized
variable and which has the install-cni container the handlers expect. -/
def testDS : PodSpec :=
  { Containers := [⟨"calico-node", [{ Name := "FOO", Value := "bar" }]⟩,
                   ⟨"install-cni", []⟩] }

/-- A pod spec with empty environments on both expected containers. -/
def cniNodeBare : PodSpec :=
  { Containers := [⟨"calico-node", []⟩, ⟨"install-cni", []⟩] }

/-- A pod spec whose install-cni container carries CNI_MTU=1440. -/
def cniNodeMTU : PodSpec :=
  { Containers := [⟨"calico-node", []⟩,
                   ⟨"install-cni", [{ Name := "CNI_MTU", Value := "1440" }]⟩] }

/-- A calico CNI configuration with the MTU sentinel and one IPAM pool. -/
def confSentinelPools : NetConf := { MTU := -1, IPAM := ⟨["10.10.0.0/16"]⟩ }

/-- CNI components: templated MTU, an IPAM pool, no CNI_MTU variable. -/
def cExPreempt : CNIComponents :=
  { node := ⟨cniNodeBare, []⟩, calicoCNIConfig := some confSentinelPools }

/-- CNI components: templated MTU with CNI_MTU=1440 available. -/
def cExSentinel : CNIComponents :=
  { node := ⟨cniNodeMTU, []⟩, calicoCNIConfig := some { MTU := -1 } }

/-- CNI components: a hard-coded MTU of 1500 and no CNI_MTU variable. -/
def cExHardcoded : CNIComponents :=
  { node := ⟨cniNodeBare, []⟩, calicoCNIConfig := some { MTU := 1500 } }

/-- A conflist parser stub for witnesses: any document parses to a fixed
calico+portmap conflist. -/
def demoConfListParse : String → Except GoError ConfList :=
  fun _ => .ok ⟨[⟨"calico", "calico-bytes"⟩, ⟨"portmap", "portmap-bytes"⟩]⟩

/-- A single-conf parser stub that always fails (the fallback is unused in
the witness). -/
def demoConfParse : String → Except GoError CNIPlugin :=
  fun _ => .error (.genericErr "not a single conf")

/-- An unmarshal stub for witnesses. -/
def demoUnmarshal : String → Except GoError NetConf :=
  fun _ => .ok {}

/-- Load components whose install-cni container holds a CNI document. -/
def lcDemo : LoadComponents :=
  { node := ⟨{ Containers :=
      [⟨"install-cni", [{ Name := "CNI_NETWORK_CONFIG", Value := "the-document" }]⟩] }, []⟩ }

/-- A platform CIDR list with an extra IPv4 CIDR beyond the first. -/
def demoCIDRs : List String := ["10.0.0.0/8", "fd00::/48", "11.0.0.0/8"]

/-- A store holding one ConfigMap without the key the fixtures ask for. -/
def storeMissingKey : ConfigMapStore := [("cm1", [("other", "x")])]

/-- An env var indirected to a ConfigMap key that the map does not hold. -/
def envVarMissingKey : EnvVar :=
  { Name := "V", Value := "", ValueFrom := some ⟨some ⟨"cm1", "missing"⟩⟩ }

/-! # Theorems -/

/-! ## C2: CIDR containment -/

/-- C2: `cidrWithinCidr` decides containment totally: for every pair of
strings it is true exactly when both parse and the outer network contains
the inner network's base address while the inner prefix length is at least
the outer one's; malformed strings therefore always yield false, and one
family-uniform algorithm decides the repository's IPv4 and IPv6 test table. -/
theorem cidrWithinCidr_containment_spec :
    (∀ cidr pool : String,
      cidrWithinCidr cidr pool = true ↔
        ∃ pc pp, goParseCIDR cidr = some pc ∧ goParseCIDR pool = some pp ∧
          netContains pc.2 pp.2.ip = true ∧
          (maskSize pc.2.mask).1 ≤ (maskSize pp.2.mask).1) ∧
    (cidrWithinCidr "192.168.0.0/16" "192.168.0.0/16" = true ∧
     cidrWithinCidr "192.168.0.0/16" "192.168.0.0/15" = false ∧
     cidrWithinCidr "192.168.2.0/24" "192.168.0.0/16" = false ∧
     cidrWithinCidr "192.168.0.0/16" "172.168.0.0/16" = false ∧
     cidrWithinCidr "192.168.0.0/16" "192.168.2.0/24" = true ∧
     cidrWithinCidr "fd00:1234::/32" "fd00:1234::/32" = true ∧
     cidrWithinCidr "fd00:1234::/32" "fd00:1234::/31" = false ∧
     cidrWithinCidr "fd00:1234:5600::/40" "fd00:1234::/32" = false ∧
     cidrWithinCidr "fd00:1234::/32" "fd00:5678::/32" = false ∧
     cidrWithinCidr "fd00:1234::/32" "fd00:1234:5600::/40" = true ∧
     cidrWithinCidr "not-a-cidr" "10.0.0.0/8" = false ∧
     cidrWithinCidr "10.0.0.0/8" "not-a-cidr" = false) := by
  constructor
  · intro cidr pool
    unfold cidrWithinCidr
    cases hc : goParseCIDR cidr with
    | none => simp [hc]
    | some pc =>
      obtain ⟨a, cNet⟩ := pc
      cases hp : goParseCIDR pool with
      | none => simp [hp]
      | some pp =>
        obtain ⟨b, pNet⟩ := pp
        simp [Bool.and_eq_true, decide_eq_true_eq, ge_iff_le]
  · decide

/-! ## C5: merge no-op cases -/

/-- C5: merge is a no-op in both cases: a nil pool list with no platform
CIDRs is returned unchanged with no error, and an explicitly empty pool
list is preserved unchanged for every platform CIDR list. -/
theorem merge_noop_cases :
    (∀ i : Installation, i.Spec.CalicoNetwork.IPPools = none →
      MergePlatformPodCIDRs i [] = .ok i) ∧
    (∀ (i : Installation) (cidrs : List String),
      i.Spec.CalicoNetwork.IPPools = some [] →
      MergePlatformPodCIDRs i cidrs = .ok i) := by
  constructor
  · intro i h
    unfold MergePlatformPodCIDRs
    rw [h]
    rfl
  · intro i cidrs h
    unfold MergePlatformPodCIDRs
    rw [h]
    rfl

theorem merge_noop_cases_witness :
    (instPoolsNil.Spec.CalicoNetwork.IPPools = none ∧
      MergePlatformPodCIDRs instPoolsNil [] = .ok instPoolsNil) ∧
    (instPoolsEmpty.Spec.CalicoNetwork.IPPools = some [] ∧
      MergePlatformPodCIDRs instPoolsEmpty ["10.0.0.0/8", "fd00::/48"] = .ok instPoolsEmpty) :=
  ⟨⟨rfl, merge_noop_cases.1 instPoolsNil rfl⟩,
   ⟨rfl, merge_noop_cases.2 instPoolsEmpty ["10.0.0.0/8", "fd00::/48"] rfl⟩⟩

/-! ## C4: configured pools against platform CIDRs -/

theorem checkPools_eq_none_iff (ps : List IPPool) (cidrs : List String) :
    checkPools ps cidrs = none ↔
      ∀ p ∈ ps, ∃ cc ∈ cidrs, cidrWithinCidr cc p.CIDR = true := by
  induction ps with
  | nil => simp [checkPools]
  | cons p rest ih =>
    by_cases h : cidrs.any (fun cc => cidrWithinCidr cc p.CIDR) = true
    · rw [List.any_eq_true] at h
      simp [checkPools, List.any_eq_true, ih, h]
    · rw [List.any_eq_true] at h
      push_neg at h
      simp only [checkPools, List.any_eq_true]
      rw [if_neg (by simpa using h)]
      simp only [reduceCtorEq, false_iff, not_forall]
      refine ⟨p, by simp, ?_⟩
      intro hcon
      obtain ⟨cc, hcc, hw⟩ := hcon
      exact absurd hw (by simpa using h cc hcc)

theorem checkPools_eq_some (ps : List IPPool) (cidrs : List String) {e : GoError}
    (h : checkPools ps cidrs = some e) :
    ∃ p ∈ ps, e = .genericErr (mergeErrMsg p.CIDR) ∧
      ∀ cc ∈ cidrs, cidrWithinCidr cc p.CIDR = false := by
  induction ps with
  | nil => simp [checkPools] at h
  | cons p rest ih =>
    by_cases hh : cidrs.any (fun cc => cidrWithinCidr cc p.CIDR) = true
    · rw [checkPools, if_pos hh] at h
      obtain ⟨q, hq, he, hall⟩ := ih h
      exact ⟨q, by simp [hq], he, hall⟩
    · rw [checkPools, if_neg hh] at h
      rw [List.any_eq_true] at hh
      push_neg at hh
      refine ⟨p, by simp, by injection h with h2; exact h2.symm, ?_⟩
      intro cc hcc
      simpa using hh cc hcc

/-- C4 (amended): with a set, non-empty configured pool list, merge
succeeds and leaves the installation unchanged exactly when every pool is
contained in at least one platform CIDR; any failure is an untyped
`fmt.Errorf` error naming a pool that is contained in no platform CIDR,
and never the typed `ErrIncompatibleCluster`. -/
theorem merge_configured_pools_contract (i : Installation) (ps : List IPPool)
    (cidrs : List String) (hset : i.Spec.CalicoNetwork.IPPools = some ps)
    (hne : ps ≠ []) :
    (MergePlatformPodCIDRs i cidrs = .ok i ↔
      ∀ p ∈ ps, ∃ cc ∈ cidrs, cidrWithinCidr cc p.CIDR = true) ∧
    (∀ e, MergePlatformPodCIDRs i cidrs = .error e →
      ∃ p ∈ ps, e = .genericErr (mergeErrMsg p.CIDR) ∧
        ∀ cc ∈ cidrs, cidrWithinCidr cc p.CIDR = false) ∧
    isIncompatExcept (MergePlatformPodCIDRs i cidrs) = false := by
  have hlen : ¬ ps.length = 0 := by simpa [List.length_eq_zero] using hne
  unfold MergePlatformPodCIDRs
  rw [hset]
  dsimp only
  rw [if_neg hlen]
  cases hk : checkPools ps cidrs with
  | none =>
    exact ⟨iff_of_true rfl ((checkPools_eq_none_iff ps cidrs).mp hk),
      by simp, by simp [isIncompatExcept]⟩
  | some e0 =>
    obtain ⟨p, hps, he0, hall⟩ := checkPools_eq_some ps cidrs hk
    refine ⟨?_, ?_, ?_⟩
    · simp only [reduceCtorEq, false_iff, not_forall]
      exact ⟨p, hps, fun hcon => by
        obtain ⟨cc, hcc, hw⟩ := hcon
        exact absurd hw (by simp [hall cc hcc])⟩
    · intro e he
      injection he with he2
      exact ⟨p, hps, he2 ▸ he0, hall⟩
    · simp [isIncompatExcept, he0]

/-- C4 counterexample: the claim's "fails with an IncompatibilityError" is
false — the failure is an untyped `fmt.Errorf` error, not the typed
`ErrIncompatibleCluster`. -/
theorem merge_configured_pools_error_untyped :
    MergePlatformPodCIDRs instPool ["192.168.0.0/16"] =
      .error (.genericErr
        "IPPool 10.1.0.0/16 is not within the platform's configured pod network CIDR(s)") ∧
    isIncompatExcept (MergePlatformPodCIDRs instPool ["192.168.0.0/16"]) = false := by
  constructor
  · rfl
  · rfl

theorem merge_configured_pools_contract_witness :
    (instPool.Spec.CalicoNetwork.IPPools = some [⟨"10.1.0.0/16"⟩]) ∧
    ([(⟨"10.1.0.0/16"⟩ : IPPool)] ≠ []) ∧
    ((MergePlatformPodCIDRs instPool ["10.0.0.0/8"] = .ok instPool ↔
      ∀ p ∈ [(⟨"10.1.0.0/16"⟩ : IPPool)], ∃ cc ∈ ["10.0.0.0/8"],
        cidrWithinCidr cc p.CIDR = true) ∧
    (∀ e, MergePlatformPodCIDRs instPool ["10.0.0.0/8"] = .error e →
      ∃ p ∈ [(⟨"10.1.0.0/16"⟩ : IPPool)], e = .genericErr (mergeErrMsg p.CIDR) ∧
        ∀ cc ∈ ["10.0.0.0/8"], cidrWithinCidr cc p.CIDR = false) ∧
    isIncompatExcept (MergePlatformPodCIDRs instPool ["10.0.0.0/8"]) = false) :=
  ⟨rfl, by decide,
   merge_configured_pools_contract instPool [⟨"10.1.0.0/16"⟩] ["10.0.0.0/8"] rfl (by decide)⟩

/-! ## C3: platform CIDR selection for a nil pool list -/

theorem appendPools_nil (pools : Option (List IPPool)) : appendPools pools [] = pools :=
  rfl

theorem appendPools_cons_eq (pools : Option (List IPPool)) (c : String) (l : List String) :
    appendPools pools (c :: l) =
      some (pools.getD [] ++ IPPool.mk c :: l.map IPPool.mk) :=
  rfl

theorem appendPools_some (g : List IPPool) (l : List String) :
    appendPools (some g) l = some (g ++ l.map IPPool.mk) := by
  cases l with
  | nil => simp [appendPools]
  | cons x xs => simp [appendPools]

theorem specSelectGo_both (cidrs : List String) : specSelectGo cidrs true true = [] := by
  cases cidrs with
  | nil => rfl
  | cons c rest => simp [specSelectGo]

theorem mergeLoop_eq_spec (cidrs : List String) :
    ∀ (v4f v6f : Bool) (pools : Option (List IPPool)),
      mergeLoop cidrs v4f v6f pools = appendPools pools (specSelectGo cidrs v4f v6f) := by
  induction cidrs with
  | nil => intro v4f v6f pools; simp [mergeLoop, specSelectGo, appendPools_nil]
  | cons c rest ih =>
    intro v4f v6f pools
    cases hq : goParseCIDR c with
    | none =>
      have hf : cidrFamily c = none := by simp [cidrFamily, hq]
      cases v4f <;> cases v6f <;>
        simp [mergeLoop, specSelectGo, hq, hf, ih, specSelectGo_both, appendPools_nil,
          appendPools_cons_eq, appendPools_some, appendPool]
    | some pr =>
      obtain ⟨addr, net⟩ := pr
      by_cases h6 : (ipTo4 addr).isNone = true
      · have hf : cidrFamily c = some .v6 := by simp [cidrFamily, hq, h6]
        cases v4f <;> cases v6f <;>
          simp [mergeLoop, specSelectGo, hq, h6, hf, ih, specSelectGo_both, appendPools_nil,
            appendPools_cons_eq, appendPools_some, appendPool]
      · have hf : cidrFamily c = some .v4 := by simp [cidrFamily, hq, h6]
        cases v4f <;> cases v6f <;>
          simp [mergeLoop, specSelectGo, hq, h6, hf, ih, specSelectGo_both, appendPools_nil,
            appendPools_cons_eq, appendPools_some, appendPool]

theorem appendPools_none (l : List String) :
    appendPools none l = optionOfList (l.map IPPool.mk) := by
  cases l with
  | nil => rfl
  | cons x xs => simp [appendPools, optionOfList]

theorem specSelectGo_sublist (cidrs : List String) :
    ∀ v4f v6f, (specSelectGo cidrs v4f v6f).Sublist cidrs := by
  induction cidrs with
  | nil => intro _ _; simp [specSelectGo]
  | cons c rest ih =>
    intro v4f v6f
    by_cases hb : v4f = true ∧ v6f = true
    · obtain ⟨h4, h6⟩ := hb
      subst h4; subst h6
      simp [specSelectGo]
    · cases hf : cidrFamily c with
      | none =>
        simp only [specSelectGo, hf]
        split
        · exact List.nil_sublist _
        · exact (ih _ _).cons c
      | some fam =>
        cases fam with
        | v4 =>
          simp only [specSelectGo, hf]
          split
          · exact List.nil_sublist _
          · split
            · exact (ih _ _).cons c
            · exact (ih _ _).cons₂ c
        | v6 =>
          simp only [specSelectGo, hf]
          split
          · exact List.nil_sublist _
          · split
            · exact (ih _ _).cons c
            · exact (ih _ _).cons₂ c

theorem specSelectGo_countV4_zero (cidrs : List String) :
    ∀ v6f, (specSelectGo cidrs true v6f).countP (fun c => cidrFamily c == some .v4) = 0 := by
  induction cidrs with
  | nil => intro v6f; simp [specSelectGo]
  | cons x rest ih =>
    intro v6f
    cases v6f with
    | true => simp [specSelectGo]
    | false =>
      cases hf : cidrFamily x with
      | none => simp [specSelectGo, hf, ih]
      | some fam =>
        cases fam with
        | v4 => simp [specSelectGo, hf, ih]
        | v6 => simp [specSelectGo, hf, List.countP_cons, ih]

theorem specSelectGo_countV6_zero (cidrs : List String) :
    ∀ v4f, (specSelectGo cidrs v4f true).countP (fun c => cidrFamily c == some .v6) = 0 := by
  induction cidrs with
  | nil => intro v4f; simp [specSelectGo]
  | cons x rest ih =>
    intro v4f
    cases v4f with
    | true => simp [specSelectGo]
    | false =>
      cases hf : cidrFamily x with
      | none => simp [specSelectGo, hf, ih]
      | some fam =>
        cases fam with
        | v6 => simp [specSelectGo, hf, ih]
        | v4 => simp [specSelectGo, hf, List.countP_cons, ih]

theorem specSelectGo_countV4_le (cidrs : List String) :
    ∀ v4f v6f, (specSelectGo cidrs v4f v6f).countP (fun c => cidrFamily c == some .v4) ≤ 1 := by
  induction cidrs with
  | nil => intro _ _; simp [specSelectGo]
  | cons x rest ih =>
    intro v4f v6f
    cases hf : cidrFamily x with
    | none =>
      cases v4f <;> cases v6f <;>
        simp [specSelectGo, hf, List.countP_cons, ih, specSelectGo_both]
    | some fam =>
      cases fam <;> cases v4f <;> cases v6f <;>
        simp [specSelectGo, hf, List.countP_cons, ih, specSelectGo_both,
          specSelectGo_countV4_zero rest]

theorem specSelectGo_countV6_le (cidrs : List String) :
    ∀ v4f v6f, (specSelectGo cidrs v4f v6f).countP (fun c => cidrFamily c == some .v6) ≤ 1 := by
  induction cidrs with
  | nil => intro _ _; simp [specSelectGo]
  | cons x rest ih =>
    intro v4f v6f
    cases hf : cidrFamily x with
    | none =>
      cases v4f <;> cases v6f <;>
        simp [specSelectGo, hf, List.countP_cons, ih, specSelectGo_both]
    | some fam =>
      cases fam <;> cases v4f <;> cases v6f <;>
        simp [specSelectGo, hf, List.countP_cons, ih, specSelectGo_both,
          specSelectGo_countV6_zero rest]

theorem specSelectGo_mem_wf (cidrs : List String) :
    ∀ v4f v6f c, c ∈ specSelectGo cidrs v4f v6f → cidrFamily c ≠ none := by
  induction cidrs with
  | nil => intro _ _ c hc; simp [specSelectGo] at hc
  | cons x rest ih =>
    intro v4f v6f c hc
    simp only [specSelectGo] at hc
    split at hc
    · simp at hc
    · cases hf : cidrFamily x with
      | none =>
        simp only [hf] at hc
        exact ih _ _ c hc
      | some fam =>
        cases fam with
        | v4 =>
          simp only [hf] at hc
          split at hc
          · exact ih _ _ c hc
          · rcases List.mem_cons.mp hc with h | h
            · subst h; simp [hf]
            · exact ih _ _ c h
        | v6 =>
          simp only [hf] at hc
          split at hc
          · exact ih _ _ c hc
          · rcases List.mem_cons.mp hc with h | h
            · subst h; simp [hf]
            · exact ih _ _ c h

/-- C3: with a nil configured pool list and a non-empty platform CIDR
list, merge returns, without error, the installation whose pools are
exactly the specification's selection — the first IPv4-family and first
IPv6-family CIDR in scan order, malformed entries skipped — one pool per
selected CIDR (nil when nothing was selected); the selection is a
subsequence of the input and holds at most one CIDR per family, all of
them well-formed. -/
theorem merge_platform_cidr_selection (i : Installation) (cidrs : List String)
    (hnil : i.Spec.CalicoNetwork.IPPools = none) (hne : cidrs ≠ []) :
    MergePlatformPodCIDRs i cidrs =
      .ok { i with Spec.CalicoNetwork.IPPools :=
              optionOfList ((specSelectPlatformCIDRs cidrs).map IPPool.mk) } ∧
    (specSelectPlatformCIDRs cidrs).Sublist cidrs ∧
    (specSelectPlatformCIDRs cidrs).countP (fun c => cidrFamily c == some .v4) ≤ 1 ∧
    (specSelectPlatformCIDRs cidrs).countP (fun c => cidrFamily c == some .v6) ≤ 1 ∧
    ∀ c ∈ specSelectPlatformCIDRs cidrs, cidrFamily c ≠ none := by
  have hlen : ¬ cidrs.length = 0 := by simpa [List.length_eq_zero] using hne
  refine ⟨?_, specSelectGo_sublist cidrs false false,
    specSelectGo_countV4_le cidrs false false, specSelectGo_countV6_le cidrs false false,
    specSelectGo_mem_wf cidrs false false⟩
  unfold MergePlatformPodCIDRs
  rw [hnil]
  dsimp only
  rw [if_neg hlen, mergeLoop_eq_spec cidrs false false none, specSelectPlatformCIDRs,
    appendPools_none]

theorem merge_platform_cidr_selection_witness :
    (instPoolsNil.Spec.CalicoNetwork.IPPools = none) ∧
    (demoCIDRs ≠ []) ∧
    (MergePlatformPodCIDRs instPoolsNil demoCIDRs = .ok { instPoolsNil with Spec.CalicoNetwork.IPPools := optionOfList ((specSelectPlatformCIDRs demoCIDRs).map IPPool.mk) } ∧
     (specSelectPlatformCIDRs demoCIDRs).Sublist demoCIDRs ∧
     (specSelectPlatformCIDRs demoCIDRs).countP (fun c => cidrFamily c == some .v4) ≤ 1 ∧
     (specSelectPlatformCIDRs demoCIDRs).countP (fun c => cidrFamily c == some .v6) ≤ 1 ∧
     ∀ c ∈ specSelectPlatformCIDRs demoCIDRs, cidrFamily c ≠ none) ∧
    specSelectPlatformCIDRs demoCIDRs = ["10.0.0.0/8", "fd00::/48"] :=
  ⟨rfl, by decide,
   merge_platform_cidr_selection instPoolsNil demoCIDRs rfl (by decide),
   by decide⟩

/-! ## C9: the environment resolution contract -/

/-- C9 (amended): resolution's full contract — an absent variable is
not-found with no error; a non-empty literal is returned directly; a
ConfigMap indirection returns the value at the key of the fetched map,
where a missing key yields Go's zero string with NO error (not an error, as
claimed); a missing ConfigMap propagates as a NotFound fetch error; any
other indirection kind fails with the typed incompatibility. -/
theorem envvar_resolution_contract :
    (∀ (store : ConfigMapStore) (env : List EnvVar) (key : String),
      env.find? (fun e => e.Name == key) = none → getEnv store env key = .ok none) ∧
    (∀ (store : ConfigMapStore) (env : List EnvVar) (key : String) (e : EnvVar),
      env.find? (fun e => e.Name == key) = some e → e.Value ≠ "" →
      getEnv store env key = .ok (some e.Value)) ∧
    (∀ (store : ConfigMapStore) (n : String) (sel : ConfigMapKeySelector)
      (data : List (String × String)),
      store.lookup sel.Name = some data →
      getEnvVar store ⟨n, "", some ⟨some sel⟩⟩ = .ok ((data.lookup sel.Key).getD "")) ∧
    (∀ (store : ConfigMapStore) (n : String) (sel : ConfigMapKeySelector),
      store.lookup sel.Name = none →
      getEnvVar store ⟨n, "", some ⟨some sel⟩⟩ =
        .error (.err (.notFoundErr ("configmaps " ++ sel.Name ++ " not found")))) ∧
    (∀ (store : ConfigMapStore) (n : String),
      getEnvVar store ⟨n, "", some ⟨none⟩⟩ =
        .error (.err (.incompatible
          "only configMapRef & explicit values supported for env vars at this time"))) := by
  refine ⟨?_, ?_, ?_, ?_, ?_⟩
  · intro store env key h
    simp [getEnv, h]
  · intro store env key e h hval
    simp [getEnv, h, getEnvVar, hval]
    rfl
  · intro store n sel data h
    simp [getEnvVar, h]
  · intro store n sel h
    simp [getEnvVar, h]
  · intro store n
    simp [getEnvVar]

/-- C9 counterexample: an environment variable indirected to an existing
ConfigMap at a key the map does not hold resolves to the empty string with
no error, refuting "a missing key reported as an error". -/
theorem envvar_missing_key_not_error :
    getEnvVar storeMissingKey envVarMissingKey = .ok "" ∧
    (getEnvVar storeMissingKey envVarMissingKey).isOk = true := by
  constructor
  · rfl
  · rfl

theorem envvar_resolution_contract_witness :
    (getEnv [] [] "ABSENT" = .ok none) ∧
    (getEnv [] [(⟨"A", "x", none⟩ : EnvVar)] "A" = .ok (some "x")) ∧
    (getEnvVar [("cm1", [("k", "val")])] ⟨"V", "", some ⟨some ⟨"cm1", "k"⟩⟩⟩ =
      .ok ((([("k", "val")] : List (String × String)).lookup "k").getD "")) ∧
    (getEnvVar [] ⟨"V", "", some ⟨some ⟨"cm1", "k"⟩⟩⟩ =
      .error (.err (.notFoundErr ("configmaps " ++ "cm1" ++ " not found")))) ∧
    (getEnvVar [] ⟨"V", "", some ⟨none⟩⟩ =
      .error (.err (.incompatible
        "only configMapRef & explicit values supported for env vars at this time"))) :=
  ⟨envvar_resolution_contract.1 [] [] "ABSENT" rfl,
   by exact envvar_resolution_contract.2.1 [] [(⟨"A", "x", none⟩ : EnvVar)] "A" ⟨"A", "x", none⟩ rfl (by decide),
   envvar_resolution_contract.2.2.1 [("cm1", [("k", "val")])] "V" ⟨"cm1", "k"⟩
     [("k", "val")] rfl,
   envvar_resolution_contract.2.2.2.1 [] "V" ⟨"cm1", "k"⟩ rfl,
   envvar_resolution_contract.2.2.2.2 [] "V"⟩

/-! ## C10: the empty-literal dereference -/

/-- C10: `getEnvVar` distinguishes literal from indirected solely by the
value string being non-empty: a non-empty literal is returned even when a
value source is set; an empty literal always dereferences the value
source, so an entry with an empty literal and no value source dereferences
a nil pointer (Go panic) instead of returning a value or typed error. -/
theorem getEnvVar_empty_literal_deref :
    (∀ (store : ConfigMapStore) (e : EnvVar), e.Value ≠ "" →
      getEnvVar store e = .ok e.Value) ∧
    (∀ (store : ConfigMapStore) (n : String),
      getEnvVar store ⟨n, "", none⟩ = .error .nilDeref) ∧
    (∀ (store : ConfigMapStore) (e : EnvVar), e.Value = "" → e.ValueFrom = none →
      getEnvVar store e = .error .nilDeref) := by
  refine ⟨?_, ?_, ?_⟩
  · intro store e h
    simp [getEnvVar, h]
  · intro store n
    rfl
  · intro store e hv hvf
    simp [getEnvVar, hv, hvf]

theorem getEnvVar_empty_literal_deref_witness :
    (("x" : String) ≠ "" ∧
      getEnvVar [] ⟨"A", "x", some ⟨none⟩⟩ = .ok "x") ∧
    getEnvVar [] ⟨"B", "", none⟩ = .error .nilDeref :=
  ⟨⟨by decide,
    getEnvVar_empty_literal_deref.1 [] ⟨"A", "x", some ⟨none⟩⟩ (by decide)⟩,
   getEnvVar_empty_literal_deref.2.1 [] "B"⟩

/-! ## Handler infrastructure lemmas -/

theorem ignoreEnv_spec (r : RaemonSet) (a b : String) : (r.ignoreEnv a b).spec = r.spec :=
  rfl

theorem getEnv_of_lookup {store : ConfigMapStore} (r : RaemonSet) {cont key : String}
    {v : Option String} (h : envLookup store r.spec cont key = .ok v) :
    r.getEnv store cont key = (.ok v, r.ignoreEnv cont key) := by
  unfold RaemonSet.getEnv
  unfold envLookup at h
  cases hc : getContainers r.spec cont with
  | none =>
    rw [hc] at h
    exact absurd h (by simp)
  | some cc =>
    rw [hc] at h
    dsimp only at h
    simp only [getEnvPlain]
    rw [h]

theorem envGuard_pass {store : ConfigMapStore} {cont key : String} (bad : String → Bool)
    (mk : String → GoError) (r : RaemonSet) {good : String → Prop}
    (hp : guardPassed (envLookup store r.spec cont key) good)
    (hgb : ∀ v, good v → bad v = false) :
    envGuard store cont key bad mk r = (r.ignoreEnv cont key, none) := by
  rcases hp with h | ⟨v, h, hv⟩
  · unfold envGuard
    rw [getEnv_of_lookup r h]
  · unfold envGuard
    rw [getEnv_of_lookup r h]
    simp [hgb v hv]

theorem processCNIChecks_state (c : CNIComponents) (node : RaemonSet) (conf : NetConf)
    (cfg : Installation) : (processCNIChecks c node conf cfg).2.1 = cfg := by
  unfold processCNIChecks
  split_ifs <;> rfl

theorem processCNIChecks_incompat (c : CNIComponents) (node : RaemonSet) (conf : NetConf)
    (cfg : Installation) :
    isIncompatStop (processCNIChecks c node conf cfg).2.2 =
      (decide (conf.IPAM.IPv4Pools ≠ []) || conf.FeatureControl.FloatingIPs ||
       conf.FeatureControl.IPAddrsNoIpam) := by
  unfold processCNIChecks
  split_ifs <;> simp_all [isIncompatStop]

theorem int32cast_of_range (z : Int) (h1 : -(2 ^ 31) ≤ z) (h2 : z < 2 ^ 31) :
    int32cast z = z := by
  unfold int32cast
  rw [Int.emod_eq_of_lt (by omega) (by omega)]
  omega

/-- Under passing guards, `handleNetwork` reaches its CNI section with the
same pod spec. -/
theorem handleNetwork_reduces (store : ConfigMapStore) (c : CNIComponents)
    (cfg : Installation) (hg : networkGuardsOk store c.node.spec) :
    ∃ (n : RaemonSet) (cfg1 : Installation), n.spec = c.node.spec ∧
      handleNetwork store c cfg = handleNetworkCNI store c n cfg1 := by
  obtain ⟨h1, h2, h3, h4⟩ := hg
  have e1 := envGuard_pass (fun v => v != "" && v != "bird")
    (fun _ => .incompatible "only CALICO_NETWORKING_BACKEND=bird is supported at this time")
    c.node h1 (fun v hv => by rcases hv with hv | hv <;> simp [hv])
  have e2 := envGuard_pass (fun v => strToLower v != "accept")
    (fun v => .incompatible
      ("unexpected FELIX_DEFAULTENDPOINTTOHOSTACTION: '" ++ v ++
       "'. Only 'accept' is supported."))
    (c.node.ignoreEnv "calico-node" "CALICO_NETWORKING_BACKEND") h2
    (fun v hv => by simp [hv])
  have e3 := envGuard_pass (fun v => strToLower v != "autodetect")
    (fun v => .incompatible
      ("unexpected IP value: '" ++ v ++ "'. Only 'autodetect' is supported."))
    ((c.node.ignoreEnv "calico-node" "CALICO_NETWORKING_BACKEND").ignoreEnv
      "calico-node" "FELIX_DEFAULTENDPOINTTOHOSTACTION") h3
    (fun v hv => by simp [hv])
  rcases h4 with ham | ⟨m, ham, t, ht⟩
  · have e4 := getEnv_of_lookup (v := none)
      (((c.node.ignoreEnv "calico-node" "CALICO_NETWORKING_BACKEND").ignoreEnv
        "calico-node" "FELIX_DEFAULTENDPOINTTOHOSTACTION").ignoreEnv "calico-node" "IP") ham
    refine ⟨(((c.node.ignoreEnv "calico-node" "CALICO_NETWORKING_BACKEND").ignoreEnv
        "calico-node" "FELIX_DEFAULTENDPOINTTOHOSTACTION").ignoreEnv "calico-node" "IP").ignoreEnv
        "calico-node" "IP_AUTODETECTION_METHOD", cfg, rfl, ?_⟩
    unfold handleNetwork
    rw [e1]
    dsimp only
    rw [e2]
    dsimp only
    rw [e3]
    dsimp only
    rw [e4]
  · have e4 := getEnv_of_lookup (v := some m)
      (((c.node.ignoreEnv "calico-node" "CALICO_NETWORKING_BACKEND").ignoreEnv
        "calico-node" "FELIX_DEFAULTENDPOINTTOHOSTACTION").ignoreEnv "calico-node" "IP") ham
    refine ⟨(((c.node.ignoreEnv "calico-node" "CALICO_NETWORKING_BACKEND").ignoreEnv
        "calico-node" "FELIX_DEFAULTENDPOINTTOHOSTACTION").ignoreEnv "calico-node" "IP").ignoreEnv
        "calico-node" "IP_AUTODETECTION_METHOD",
      { cfg with Spec.CalicoNetwork.NodeAddressAutodetectionV4 := some t }, rfl, ?_⟩
    unfold handleNetwork
    rw [e1]
    dsimp only
    rw [e2]
    dsimp only
    rw [e3]
    dsimp only
    rw [e4]
    dsimp only
    rw [ht]
    rfl

/-! ## The MTU placeholder substitution leaves no occurrence behind -/

theorem patMTU_eq : patMTU = ['_', '_', 'C', 'N', 'I', '_', 'M', 'T', 'U', '_', '_'] :=
  rfl

theorem patMTU_not_prefix_dash (l : List Char) : patMTU.isPrefixOf ('-' :: l) = false := by
  rw [patMTU_eq]
  simp [List.isPrefixOf]

theorem patMTU_not_prefix_one (l : List Char) : patMTU.isPrefixOf ('1' :: l) = false := by
  rw [patMTU_eq]
  simp [List.isPrefixOf]

theorem containsSubList_cons (pat : List Char) (a : Char) (l : List Char) :
    containsSubList pat (a :: l) = (pat.isPrefixOf (a :: l) || containsSubList pat l) :=
  rfl

theorem replaceAllCh_cons_pos (fuel : Nat) (ch : Char) (rest rep : List Char)
    (hp : patMTU.isPrefixOf (ch :: rest) = true) :
    replaceAllCh (fuel + 1) (ch :: rest) patMTU rep =
      rep ++ replaceAllCh fuel ((ch :: rest).drop patMTU.length) patMTU rep := by
  have hne : patMTU ≠ [] := by decide
  simp [replaceAllCh, hp, hne]

theorem replaceAllCh_cons_neg (fuel : Nat) (ch : Char) (rest rep : List Char)
    (hp : patMTU.isPrefixOf (ch :: rest) = false) :
    replaceAllCh (fuel + 1) (ch :: rest) patMTU rep =
      ch :: replaceAllCh fuel rest patMTU rep := by
  simp [replaceAllCh, hp]

/-- Prefix transfer: a nonempty, dash-free list is a prefix of the
substituted text only where it was a prefix of the original. -/
theorem replaceAll_prefix_transfer :
    ∀ (fuel : Nat) (s q : List Char), s.length ≤ fuel → q ≠ [] →
      (∀ a ∈ q, a ≠ '-') →
      q.isPrefixOf (replaceAllCh fuel s patMTU ('-' :: '1' :: [])) = true →
      q.isPrefixOf s = true := by
  intro fuel
  induction fuel with
  | zero =>
    intro s q hlen hq hnd hpre
    have hs : s = [] := List.length_eq_zero.mp (Nat.le_zero.mp hlen)
    subst hs
    cases q with
    | nil => exact absurd rfl hq
    | cons a q' => simp [replaceAllCh, List.isPrefixOf] at hpre
  | succ fuel ih =>
    intro s q hlen hq hnd hpre
    cases s with
    | nil =>
      cases q with
      | nil => exact absurd rfl hq
      | cons a q' => simp [replaceAllCh, List.isPrefixOf] at hpre
    | cons ch rest =>
      have hlen' : rest.length ≤ fuel := by
        simp only [List.length_cons] at hlen
        omega
      by_cases hp : patMTU.isPrefixOf (ch :: rest) = true
      · rw [replaceAllCh_cons_pos fuel ch rest _ hp] at hpre
        cases q with
        | nil => exact absurd rfl hq
        | cons a q' =>
          have ha : a ≠ '-' := hnd a (by simp)
          simp [List.isPrefixOf] at hpre
          exact absurd hpre.1 ha
      · rw [Bool.not_eq_true] at hp
        rw [replaceAllCh_cons_neg fuel ch rest _ hp] at hpre
        cases q with
        | nil => exact absurd rfl hq
        | cons a q' =>
          simp only [List.isPrefixOf, Bool.and_eq_true] at hpre ⊢
          obtain ⟨hac, hq'⟩ := hpre
          refine ⟨hac, ?_⟩
          cases hq'nil : q' with
          | nil => simp [List.isPrefixOf]
          | cons b q'' =>
            exact hq'nil ▸ ih rest q' hlen' (by simp [hq'nil])
              (fun x hx => hnd x (List.mem_cons_of_mem a hx)) hq'

/-- After substitution the placeholder occurs nowhere in the text. -/
theorem replaceAll_no_pattern :
    ∀ (fuel : Nat) (s : List Char), s.length ≤ fuel →
      containsSubList patMTU (replaceAllCh fuel s patMTU ('-' :: '1' :: [])) = false := by
  intro fuel
  induction fuel with
  | zero =>
    intro s hlen
    have hs : s = [] := List.length_eq_zero.mp (Nat.le_zero.mp hlen)
    subst hs
    decide
  | succ fuel ih =>
    intro s hlen
    cases s with
    | nil => simpa [replaceAllCh] using (by decide : containsSubList patMTU [] = false)
    | cons ch rest =>
      have hlen' : rest.length ≤ fuel := by
        simp only [List.length_cons] at hlen
        omega
      by_cases hp : patMTU.isPrefixOf (ch :: rest) = true
      · rw [replaceAllCh_cons_pos fuel ch rest _ hp]
        have hlen2 : ((ch :: rest).drop patMTU.length).length ≤ fuel := by
          have hp11 : patMTU.length = 11 := by decide
          simp only [List.length_drop, List.length_cons, hp11]
          omega
        simp [containsSubList_cons, patMTU_not_prefix_dash, patMTU_not_prefix_one,
          ih _ hlen2]
      · rw [Bool.not_eq_true] at hp
        rw [replaceAllCh_cons_neg fuel ch rest _ hp]
        rw [containsSubList_cons]
        have hR := ih rest hlen'
        have hpre : patMTU.isPrefixOf
            (ch :: replaceAllCh fuel rest patMTU ('-' :: '1' :: [])) = false := by
          cases hx : patMTU.isPrefixOf
              (ch :: replaceAllCh fuel rest patMTU ('-' :: '1' :: [])) with
          | false => rfl
          | true =>
            exfalso
            rw [patMTU_eq] at hx
            simp only [List.isPrefixOf, Bool.and_eq_true] at hx
            obtain ⟨hc1, hx'⟩ := hx
            have htr := replaceAll_prefix_transfer fuel rest
              ['_', 'C', 'N', 'I', '_', 'M', 'T', 'U', '_', '_'] hlen' (by decide)
              (by decide) (by simpa [List.isPrefixOf, Bool.and_eq_true] using hx')
            have : patMTU.isPrefixOf (ch :: rest) = true := by
              rw [patMTU_eq]
              simp only [List.isPrefixOf, Bool.and_eq_true]
              exact ⟨hc1, by simpa [List.isPrefixOf, Bool.and_eq_true] using htr⟩
            rw [this] at hp
            exact absurd hp (by decide)
        simp [hpre, hR]

/-- The substitution step of `loadCNIConfig` removes every occurrence of
the placeholder token. -/
theorem templateCNIMTU_no_occurrence (s : String) :
    containsSubList patMTU (templateCNIMTU s).data = false := by
  unfold templateCNIMTU
  by_cases h : containsSubList patMTU s.data = true
  · rw [if_pos h]
    show containsSubList patMTU
      (replaceAllCh s.data.length s.data patMTU ('-' :: '1' :: [])) = false
    exact replaceAll_no_pattern s.data.length s.data le_rfl
  · rw [Bool.not_eq_true] at h
    rw [if_neg (by simp [h])]
    exact h

/-! ## C6: MTU resolution by the sentinel -/

/-- C6: MTU resolution is selected solely by the -1 sentinel (the value
substituted for every occurrence of the placeholder before parsing —
conjunct four: no occurrence survives substitution): when the calico
plugin's MTU equals -1 the value is read from CNI_MTU on the install-cni
container and its absence is a fatal (plain) error; a concrete positive
MTU is used verbatim, with no hypothesis on — hence no consultation of —
the install-cni environment. -/
theorem handleNetwork_mtu_sentinel_paths (store : ConfigMapStore) (c : CNIComponents)
    (cfg : Installation) (conf : NetConf)
    (hg : networkGuardsOk store c.node.spec)
    (hbw : c.pluginCNIConfig.contains "bandwidth" = false)
    (hconf : c.calicoCNIConfig = some conf) :
    (conf.MTU = -1 →
      (envLookup store c.node.spec "install-cni" "CNI_MTU" = .ok none →
        (handleNetwork store c cfg).2.2 =
          some (.err (.genericErr "couldn't detect MTU"))) ∧
      (∀ v, envLookup store c.node.spec "install-cni" "CNI_MTU" = .ok (some v) →
        ((handleNetwork store c cfg).2.1).Spec.CalicoNetwork.MTU =
          some (int32cast (intstrIntValue v)))) ∧
    (conf.MTU ≠ -1 →
      ((handleNetwork store c cfg).2.1).Spec.CalicoNetwork.MTU =
        some (int32cast conf.MTU)) ∧
    (0 < conf.MTU → conf.MTU < 2 ^ 31 →
      ((handleNetwork store c cfg).2.1).Spec.CalicoNetwork.MTU = some conf.MTU) ∧
    (∀ s : String, containsSubList patMTU (templateCNIMTU s).data = false) := by
  obtain ⟨n, cfg1, hspec, heq⟩ := handleNetwork_reduces store c cfg hg
  have hbwm : "bandwidth" ∉ c.pluginCNIConfig := by simpa using hbw
  have case2 : conf.MTU ≠ -1 →
      ((handleNetwork store c cfg).2.1).Spec.CalicoNetwork.MTU =
        some (int32cast conf.MTU) := by
    intro hm
    rw [heq]
    simp [handleNetworkCNI, hconf, hbwm, hm, processCNIChecks_state]
  refine ⟨fun hm => ⟨?_, ?_⟩, case2, fun hpos hlt => ?_, templateCNIMTU_no_occurrence⟩
  · intro henv
    rw [← hspec] at henv
    rw [heq]
    simp [handleNetworkCNI, hconf, hbwm, hm, getEnv_of_lookup n henv]
  · intro v henv
    rw [← hspec] at henv
    rw [heq]
    simp [handleNetworkCNI, hconf, hbwm, hm, getEnv_of_lookup n henv, processCNIChecks_state]
  · have hm : conf.MTU ≠ -1 := by omega
    rw [case2 hm, int32cast_of_range conf.MTU (by omega) hlt]

theorem handleNetwork_mtu_sentinel_paths_witness :
    networkGuardsOk [] cExSentinel.node.spec ∧
    cExSentinel.pluginCNIConfig.contains "bandwidth" = false ∧
    cExSentinel.calicoCNIConfig = some { MTU := -1 } ∧
    (((-1 : Int) = -1 →
      (envLookup [] cExSentinel.node.spec "install-cni" "CNI_MTU" = .ok none →
        (handleNetwork [] cExSentinel {}).2.2 =
          some (.err (.genericErr "couldn't detect MTU"))) ∧
      (∀ v, envLookup [] cExSentinel.node.spec "install-cni" "CNI_MTU" = .ok (some v) →
        ((handleNetwork [] cExSentinel {}).2.1).Spec.CalicoNetwork.MTU =
          some (int32cast (intstrIntValue v)))) ∧
    ((-1 : Int) ≠ -1 →
      ((handleNetwork [] cExSentinel {}).2.1).Spec.CalicoNetwork.MTU =
        some (int32cast (-1))) ∧
    ((0 : Int) < -1 → (-1 : Int) < 2 ^ 31 →
      ((handleNetwork [] cExSentinel {}).2.1).Spec.CalicoNetwork.MTU = some (-1)) ∧
    (∀ s : String, containsSubList patMTU (templateCNIMTU s).data = false)) :=
  ⟨⟨Or.inl rfl, Or.inl rfl, Or.inl rfl, Or.inl rfl⟩, rfl, rfl,
   handleNetwork_mtu_sentinel_paths [] cExSentinel {} { MTU := -1 }
     ⟨Or.inl rfl, Or.inl rfl, Or.inl rfl, Or.inl rfl⟩ rfl rfl⟩

/-! ## C7: the incompatibility conditions of CNI processing -/

theorem handleNetworkCNI_incompat_iff (store : ConfigMapStore) (c : CNIComponents)
    (n : RaemonSet) (cfg1 : Installation)
    (hmtu : ∀ conf, c.calicoCNIConfig = some conf → conf.MTU = -1 →
      ∃ v, envLookup store n.spec "install-cni" "CNI_MTU" = .ok (some v)) :
    (isIncompatStop (handleNetworkCNI store c n cfg1).2.2 = true ↔
      (c.calicoCNIConfig = none ∨ c.pluginCNIConfig.contains "bandwidth" = true ∨
       ∃ conf, c.calicoCNIConfig = some conf ∧
         (conf.IPAM.IPv4Pools ≠ [] ∨ conf.FeatureControl.FloatingIPs = true ∨
          conf.FeatureControl.IPAddrsNoIpam = true))) := by
  by_cases hbw : "bandwidth" ∈ c.pluginCNIConfig
  · simp [handleNetworkCNI, hbw, isIncompatStop]
  · cases hcc : c.calicoCNIConfig with
    | none => simp [handleNetworkCNI, hbw, hcc, isIncompatStop]
    | some conf =>
      by_cases hm : conf.MTU = -1
      · obtain ⟨v, hv⟩ := hmtu conf hcc hm
        simp [handleNetworkCNI, hbw, hcc, hm, getEnv_of_lookup n hv,
          processCNIChecks_incompat, or_assoc]
      · simp [handleNetworkCNI, hbw, hcc, hm, processCNIChecks_incompat, or_assoc]

/-- C7 (amended): given passing guards and a resolvable MTU (the sentinel,
if present, has a CNI_MTU source), CNI processing raises the typed
incompatibility exactly when the calico plugin is absent, the bandwidth
plugin is present, or the calico configuration carries IPAM pools, the
floating-IPs flag or the IP-addresses-without-IPAM flag. -/
theorem handleNetwork_incompat_conditions (store : ConfigMapStore) (c : CNIComponents)
    (cfg : Installation) (hg : networkGuardsOk store c.node.spec)
    (hmtu : ∀ conf, c.calicoCNIConfig = some conf → conf.MTU = -1 →
      ∃ v, envLookup store c.node.spec "install-cni" "CNI_MTU" = .ok (some v)) :
    (isIncompatStop (handleNetwork store c cfg).2.2 = true ↔
      (c.calicoCNIConfig = none ∨ c.pluginCNIConfig.contains "bandwidth" = true ∨
       ∃ conf, c.calicoCNIConfig = some conf ∧
         (conf.IPAM.IPv4Pools ≠ [] ∨ conf.FeatureControl.FloatingIPs = true ∨
          conf.FeatureControl.IPAddrsNoIpam = true))) := by
  obtain ⟨n, cfg1, hspec, heq⟩ := handleNetwork_reduces store c cfg hg
  rw [heq]
  exact handleNetworkCNI_incompat_iff store c n cfg1 (by rw [hspec]; exact hmtu)

/-- C7 counterexample: with a non-empty IPAM pool list but an unresolved
MTU sentinel, processing fails with a plain error, not the typed
incompatibility — so "a non-empty IPAM address-pool list suffices for an
IncompatibilityError" is false as stated. -/
theorem handleNetwork_incompat_mtu_preempt :
    (handleNetwork [] cExPreempt {}).2.2 =
      some (.err (.genericErr "couldn't detect MTU")) ∧
    isIncompatStop (handleNetwork [] cExPreempt {}).2.2 = false ∧
    cExPreempt.calicoCNIConfig = some confSentinelPools ∧
    confSentinelPools.IPAM.IPv4Pools ≠ [] :=
  ⟨rfl, rfl, rfl, by decide⟩

theorem handleNetwork_incompat_conditions_witness :
    networkGuardsOk [] cExSentinel.node.spec ∧
    (isIncompatStop (handleNetwork [] cExSentinel {}).2.2 = true ↔
      (cExSentinel.calicoCNIConfig = none ∨
       cExSentinel.pluginCNIConfig.contains "bandwidth" = true ∨
       ∃ conf, cExSentinel.calicoCNIConfig = some conf ∧
         (conf.IPAM.IPv4Pools ≠ [] ∨ conf.FeatureControl.FloatingIPs = true ∨
          conf.FeatureControl.IPAddrsNoIpam = true))) :=
  ⟨⟨Or.inl rfl, Or.inl rfl, Or.inl rfl, Or.inl rfl⟩,
   handleNetwork_incompat_conditions [] cExSentinel {}
     ⟨Or.inl rfl, Or.inl rfl, Or.inl rfl, Or.inl rfl⟩
     (fun _ _ _ => ⟨"1440", rfl⟩)⟩

/-! ## C8: host ports are a total function of the portmap plugin -/

/-- C8: on every successfully parsed CNI document, `loadCNI` sets the
host-ports field — in success and failure outcomes alike — to enabled
exactly when a plugin named portmap is present, and to disabled otherwise;
the field is never left unset. -/
theorem loadCNI_hostports_total
    (parseL : String → Except GoError ConfList) (parseC : String → Except GoError CNIPlugin)
    (unm : String → Except GoError NetConf) (store : ConfigMapStore)
    (c : LoadComponents) (cfg : Installation) (doc : String) (conflist : ConfList)
    (hdoc : envLookup store c.node.spec "install-cni" "CNI_NETWORK_CONFIG" = .ok (some doc))
    (hparse : loadCNIConfig parseL parseC doc = .ok conflist) :
    ((loadCNI parseL parseC unm store c cfg).2.1).Spec.CalicoNetwork.HostPorts =
      some (if (conflist.Plugins.map (fun p => p.Name)).contains "portmap"
            then HostPortsType.enabled else HostPortsType.disabled) := by
  unfold loadCNI
  rw [getEnv_of_lookup c.node hdoc]
  dsimp only
  rw [hparse]
  dsimp only
  by_cases hbw : ∃ a ∈ conflist.Plugins, a.Name = "bandwidth"
  · simp [hbw]
  · cases hfind : conflist.Plugins.reverse.find? (fun p => p.Name == "calico") with
    | none => simp [hbw, hfind]
    | some cc =>
      cases hu : unm cc.Bytes with
      | error e => simp [hbw, hfind, hu]
      | ok conf => simp [hbw, hfind, hu]

theorem loadCNI_hostports_total_witness :
    (envLookup [] lcDemo.node.spec "install-cni" "CNI_NETWORK_CONFIG" =
      .ok (some "the-document")) ∧
    (loadCNIConfig demoConfListParse demoConfParse "the-document" =
      .ok ⟨[⟨"calico", "calico-bytes"⟩, ⟨"portmap", "portmap-bytes"⟩]⟩) ∧
    ((loadCNI demoConfListParse demoConfParse demoUnmarshal [] lcDemo {}).2.1).Spec.CalicoNetwork.HostPorts =
      some (if ((⟨[⟨"calico", "calico-bytes"⟩, ⟨"portmap", "portmap-bytes"⟩]⟩ :
              ConfList).Plugins.map (fun p => p.Name)).contains "portmap"
            then HostPortsType.enabled else HostPortsType.disabled) :=
  ⟨rfl, rfl,
   loadCNI_hostports_total demoConfListParse demoConfParse demoUnmarshal [] lcDemo {}
     "the-document" ⟨[⟨"calico", "calico-bytes"⟩, ⟨"portmap", "portmap-bytes"⟩]⟩ rfl rfl⟩

/-! ## C1: the unchecked-variable check is absent -/

/-- C1 (code bug): the source's unchecked-variable check is commented out,
so `GetExistingConfig` returns a Config although the calico-node container
still carries the unclaimed variable FOO — for every JSON checker and
every ConfigMap store, the run succeeds while `uncheckedVars` names
`calico-node/FOO`. -/
theorem getExistingConfig_returns_despite_unchecked :
    ∀ (jsonErr : String → Option GoError) (store : ConfigMapStore),
      GetExistingConfig jsonErr store testDS = .ok (some {}) ∧
      uncheckedVars (getExistingConfigRun jsonErr store testDS).1.node =
        ["calico-node/FOO"] :=
  fun _ _ => ⟨rfl, rfl⟩
